import Mathlib

/-!
Verification of the MML player watch face
(`movement/watch_faces/demo/mml_player_face.c`).

The C source is shallowly embedded: the pitch resolver `note_from_mml`,
the tempo/duration arithmetic, and the tokenizing playback loop
`mml_play_blocking` become executable Lean functions.  Hardware calls
(display, pixels, buzzer, delay) are recorded as an `Effect` trace in
the order the C code issues them.  The unbounded C `while` loop is
embedded with explicit fuel; a fuel-irrelevance theorem shows that
`length + 1` fuel is always sufficient, i.e. the loop terminates.
-/

namespace MmlPlayer

/-- `BuzzerNote`: either the rest sentinel `BUZZER_NOTE_REST` or a pitch
index into the hardware frequency table. -/
inductive BuzzerNote where
  | rest : BuzzerNote
  | note (idx : Int) : BuzzerNote
deriving DecidableEq, Repr

/-- A parsed MML token: a note (uppercased letter, accidental, resolved
length denominator) or a rest (resolved length denominator).  The length
stored is after the `len <= 0 → default_len` substitution. -/
inductive Token where
  | note (letter : Char) (accidental : Int) (len : Nat) : Token
  | rest (len : Nat) : Token
deriving DecidableEq, Repr

/-- One hardware side effect issued by the player, in program order. -/
inductive Effect where
  | displayString (s : String) (pos : Nat) : Effect
  | setPixel (com seg : Nat) : Effect
  | clearPixel (com seg : Nat) : Effect
  | buzzerPlayNote (n : BuzzerNote) (ms : Nat) : Effect
  | buzzerOff : Effect
  | delay (ms : Nat) : Effect
  | clearDisplay : Effect
deriving DecidableEq, Repr

/-- The movement events the face loop distinguishes. -/
inductive EventType where
  | activate : EventType
  | lightButtonUp : EventType
  | modeButtonUp : EventType
  | other : EventType
deriving DecidableEq, Repr

/-- Return value of the face loop: a plain boolean, or delegation to
`movement_default_loop_handler`. -/
inductive LoopResult where
  | value (b : Bool) : LoopResult
  | delegate : LoopResult
deriving DecidableEq, Repr

/-- `mml_player_state_t`: the single `is_playing` flag. -/
structure MmlPlayerState where
  is_playing : Bool
deriving DecidableEq, Repr

/-! ## ASCII ctype helpers used by the source -/

/-- C `toupper` restricted to ASCII (the source applies it to score
characters). -/
def c_toupper (c : Char) : Char :=
  if 'a' ≤ c ∧ c ≤ 'z' then Char.ofNat (c.toNat - 32) else c

/-- C `tolower` restricted to ASCII (used by `display_note_char`). -/
def c_tolower (c : Char) : Char :=
  if 'A' ≤ c ∧ c ≤ 'Z' then Char.ofNat (c.toNat + 32) else c

/-- C `isdigit`. -/
def isDigitC (c : Char) : Bool :=
  '0' ≤ c && c ≤ '9'

/-! ## Pitch resolver (`note_from_mml`, source lines 40–60) -/

/-- The `switch (letter)` base-semitone table; `none` is the `default`
case that returns `BUZZER_NOTE_REST`. -/
def baseOf : Char → Option Int
  | 'C' => some 0
  | 'D' => some 2
  | 'E' => some 4
  | 'F' => some 5
  | 'G' => some 7
  | 'A' => some 9
  | 'B' => some 11
  | _ => none

/-- Source line 53: `if (semitone < 0) { semitone += 12; if (octave > 1) octave--; }`. -/
def adjust_octave_down (s : Int) (octave : Nat) : Int × Nat :=
  if s < 0 then (s + 12, if octave > 1 then octave - 1 else octave) else (s, octave)

/-- Source line 54: `if (semitone >= 12) { semitone -= 12; if (octave < 8) octave++; }`. -/
def adjust_octave_up (s : Int) (octave : Nat) : Int × Nat :=
  if s ≥ 12 then (s - 12, if octave < 8 then octave + 1 else octave) else (s, octave)

/-- `note_from_mml(letter, accidental, octave)`, source lines 40–60.
Computes the clamped pitch-table index, or the rest sentinel for a
letter outside `A`–`G`. -/
def note_from_mml (letter : Char) (accidental : Int) (octave : Nat) : BuzzerNote :=
  match baseOf letter with
  | none => BuzzerNote.rest
  | some base =>
    let s1 := base + accidental
    let p1 := adjust_octave_down s1 octave
    let p2 := adjust_octave_up p1.1 p1.2
    let idx : Int := (p2.2 : Int) * 12 + p2.1 - 21
    BuzzerNote.note (if idx < 0 then 0 else if idx > 86 then 86 else idx)

/-- `true` iff the buzzer-note is a pitch index inside the table bounds
`[0, 86]`. -/
def inBoundsB : BuzzerNote → Bool
  | BuzzerNote.rest => false
  | BuzzerNote.note i => 0 ≤ i && i ≤ 86

/-- Spec-side base table, written from the claim's words
(C=0, D=2, E=4, F=5, G=7, A=9, B=11). -/
def claim_base : Char → Int
  | 'C' => 0
  | 'D' => 2
  | 'E' => 4
  | 'F' => 5
  | 'G' => 7
  | 'A' => 9
  | 'B' => 11
  | _ => 0

/-- Spec-side resolver index, written from the claim's words: base plus
accidental; if negative add 12 and decrement octave only when
octave > 1; if ≥ 12 subtract 12 and increment octave only when
octave < 8; return `octave*12 + semitone - 21` clamped to `[0, 86]`. -/
def claim_resolve (letter : Char) (accidental : Int) (octave : Nat) : Int :=
  let s0 := claim_base letter + accidental
  let s1 := if s0 < 0 then s0 + 12 else s0
  let o1 := if s0 < 0 then (if octave > 1 then octave - 1 else octave) else octave
  let s2 := if s1 ≥ 12 then s1 - 12 else s1
  let o2 := if s1 ≥ 12 then (if o1 < 8 then o1 + 1 else o1) else o1
  let idx : Int := (o2 : Int) * 12 + s2 - 21
  if idx < 0 then 0 else if idx > 86 then 86 else idx

/-! ## Duration arithmetic (source lines 94–95) -/

/-- `quarter_ms = 60000UL / tempo_bpm` (truncating division). -/
def quarter_ms (tempo_bpm : Nat) : Nat := 60000 / tempo_bpm

/-- `dur_ms = (4UL * quarter_ms) / len` (multiply before divide,
truncating division). -/
def dur_ms (tempo_bpm len : Nat) : Nat := 4 * quarter_ms tempo_bpm / len

/-! ## Tokenizer (the scanning part of the loop, source lines 72–92) -/

/-- The digit loop of line 91: `while (isdigit(*p)) len = len*10 + (*p++-'0')`. -/
def parseLenAux : Nat → List Char → Nat × List Char
  | acc, [] => (acc, [])
  | acc, c :: rest =>
    if isDigitC c then parseLenAux (acc * 10 + (c.toNat - '0'.toNat)) rest
    else (acc, c :: rest)

/-- Parse an optional run of digits starting from 0. -/
def parseLen (l : List Char) : Nat × List Char := parseLenAux 0 l

/-- Source lines 83–84: one optional accidental character; `+`/`#` gives
+1, `-` gives −1, anything else is left unconsumed. -/
def parseAccidental : List Char → Int × List Char
  | [] => (0, [])
  | c :: rest =>
    if c = '+' ∨ c = '#' then (1, rest)
    else if c = '-' then (-1, rest)
    else (0, c :: rest)

/-- Source line 92: `if (len <= 0) len = default_len`. -/
def lenOrDefault (d len : Nat) : Nat := if len = 0 then d else len

/-- One pass of the scanner: skip separators and unrecognized
characters, then produce the next token and the rest of the input, or
`none` at end of input.  Mirrors source lines 72–92 (the `continue` on
an unrecognized character is the final recursive call). -/
def nextToken (d : Nat) : List Char → Option (Token × List Char)
  | [] => none
  | c :: cs =>
    if c = ' ' ∨ c = '\t' ∨ c = '|' then nextToken d cs
    else if c_toupper c = 'R' ∨ c_toupper c = 'P' then
      some (Token.rest (lenOrDefault d (parseLen cs).1), (parseLen cs).2)
    else if 'A' ≤ c_toupper c ∧ c_toupper c ≤ 'G' then
      some (Token.note (c_toupper c) (parseAccidental cs).1
              (lenOrDefault d (parseLen (parseAccidental cs).2).1),
            (parseLen (parseAccidental cs).2).2)
    else nextToken d cs

/-- Token stream with explicit fuel (each token consumes at least one
input character, so `length + 1` fuel is enough — see
`nextToken_consumes`). -/
def tokenizeFuel (d : Nat) : Nat → List Char → List Token
  | 0, _ => []
  | fuel + 1, l =>
    match nextToken d l with
    | none => []
    | some (tok, rest) => tok :: tokenizeFuel d fuel rest

/-- All tokens of a score. -/
def tokenize (d : Nat) (l : List Char) : List Token :=
  tokenizeFuel d (l.length + 1) l

/-! ## Playback (`mml_play_blocking`, source lines 64–129) -/

/-- `display_note_char(ch)`: show `tolower(ch)` in digit 0
(source lines 31–34). -/
def display_note_char (c : Char) : Effect :=
  Effect.displayString (String.mk [c_tolower c]) 0

/-- The hardware effects one token produces inside the playback loop
(source lines 94–121), with the fixed `tempo_bpm = 120` and
`octave = 4` of `mml_play_blocking`; durations are truncated to
`uint16_t` at the call sites. -/
def tokenEffects (tok : Token) : List Effect :=
  match tok with
  | Token.rest len =>
    [Effect.clearPixel 0 12, Effect.clearPixel 0 15,
     display_note_char ' ', Effect.buzzerOff,
     Effect.delay (dur_ms 120 len % 65536)]
  | Token.note c acc len =>
    [Effect.clearPixel 0 12, Effect.clearPixel 0 15, display_note_char c]
    ++ (if acc > 0 then [Effect.setPixel 0 12]
        else if acc < 0 then [Effect.setPixel 0 15] else [])
    ++ [Effect.buzzerPlayNote (note_from_mml c acc 4) (dur_ms 120 len % 65536),
        Effect.clearPixel 0 12, Effect.clearPixel 0 15]

/-- The playback `while` loop with explicit fuel: emit each token's
effects in order. -/
def playLoopFuel : Nat → List Char → List Effect
  | 0, _ => []
  | fuel + 1, l =>
    match nextToken 4 l with
    | none => []
    | some (tok, rest) => tokenEffects tok ++ playLoopFuel fuel rest

/-- The unconditional cleanup after the tune (source lines 125–128):
blank digit 0, clear both accidental pixels, silence the buzzer. -/
def cleanupEffects : List Effect :=
  [display_note_char ' ', Effect.clearPixel 0 12, Effect.clearPixel 0 15,
   Effect.buzzerOff]

/-- `mml_play_blocking(mml)`: `none` models a NULL pointer (line 65
returns immediately); otherwise run the loop, then the cleanup. -/
def mml_play_blocking : Option (List Char) → List Effect
  | none => []
  | some l => playLoopFuel (l.length + 1) l ++ cleanupEffects

/-- The built-in demo tune (source lines 133–134). -/
def demo_mml : List Char :=
  "c8 d-8 d8 e8 e-8 f8 f+8 g8 g+8 a8 b8 c2 r4 f+2 c8 c8 g4 r8".toList

/-- The LIGHT-button branch of the face loop (source lines 158–167),
abstracted over the score it plays: if already playing, a no-op;
otherwise clear the display, show "play", play the score, show "done",
and end with `is_playing = false`. -/
def start_playback (score : List Char) (st : MmlPlayerState) :
    MmlPlayerState × List Effect :=
  if st.is_playing then (st, [])
  else
    (⟨false⟩,
     [Effect.clearDisplay, Effect.displayString "play" 5]
       ++ mml_play_blocking (some score)
       ++ [Effect.displayString "done" 5])

/-- `mml_player_face_loop` (source lines 151–176): state transition,
emitted effects, and return value per event. -/
def mml_player_face_loop (ev : EventType) (st : MmlPlayerState) :
    MmlPlayerState × List Effect × LoopResult :=
  match ev with
  | EventType.activate => (st, [], LoopResult.value true)
  | EventType.lightButtonUp =>
    ((start_playback demo_mml st).1, (start_playback demo_mml st).2,
     LoopResult.value true)
  | EventType.modeButtonUp => (st, [], LoopResult.delegate)
  | EventType.other => (st, [], LoopResult.value true)

/-- `true` iff the effect is a tone command (`watch_buzzer_play_note`). -/
def isToneB : Effect → Bool
  | Effect.buzzerPlayNote _ _ => true
  | _ => false

/-! ## Helper lemmas: the scanner only consumes input -/

/-- The digit loop never lengthens the remaining input. -/
theorem parseLenAux_sublen (acc : Nat) (l : List Char) :
    (parseLenAux acc l).2.length ≤ l.length := by
  induction l generalizing acc with
  | nil => simp [parseLenAux]
  | cons c rest ih =>
    simp only [parseLenAux]
    split
    · exact le_trans (ih _) (Nat.le_succ _)
    · exact le_refl _

/-- `parseLen` never lengthens the remaining input. -/
theorem parseLen_sublen (l : List Char) : (parseLen l).2.length ≤ l.length :=
  parseLenAux_sublen 0 l

/-- `parseAccidental` never lengthens the remaining input. -/
theorem parseAccidental_sublen (l : List Char) :
    (parseAccidental l).2.length ≤ l.length := by
  cases l with
  | nil => exact le_refl _
  | cons c rest =>
    simp only [parseAccidental]
    split
    · exact Nat.le_succ _
    · split
      · exact Nat.le_succ _
      · exact le_refl _

/-- Producing a token strictly consumes input: the cursor advances on
every loop iteration, which is why the playback loop terminates. -/
theorem nextToken_consumes (d : Nat) :
    ∀ (l : List Char) (tok : Token) (rest : List Char),
      nextToken d l = some (tok, rest) → rest.length < l.length := by
  intro l
  induction l with
  | nil => intro tok rest h; simp [nextToken] at h
  | cons c cs ih =>
    intro tok rest h
    simp only [nextToken] at h
    split at h
    · exact Nat.lt_succ_of_lt (ih _ _ h)
    · split at h
      · cases h
        exact Nat.lt_succ_of_le (parseLen_sublen cs)
      · split at h
        · cases h
          exact Nat.lt_succ_of_le
            (le_trans (parseLen_sublen _) (parseAccidental_sublen cs))
        · exact Nat.lt_succ_of_lt (ih _ _ h)

/-- Fuel irrelevance: any fuel beyond the input length produces the
same effect trace. -/
theorem playLoopFuel_irrel :
    ∀ (n : Nat) (l : List Char) (f1 f2 : Nat), l.length ≤ n →
      l.length < f1 → l.length < f2 → playLoopFuel f1 l = playLoopFuel f2 l := by
  intro n
  induction n with
  | zero =>
    intro l f1 f2 hn h1 h2
    have hl : l = [] := List.eq_nil_of_length_eq_zero (Nat.le_zero.mp hn)
    subst hl
    cases f1 with
    | zero => omega
    | succ k1 =>
      cases f2 with
      | zero => omega
      | succ k2 => rfl
  | succ n ih =>
    intro l f1 f2 hn h1 h2
    cases f1 with
    | zero => omega
    | succ k1 =>
      cases f2 with
      | zero => omega
      | succ k2 =>
        cases htok : nextToken 4 l with
        | none => simp only [playLoopFuel, htok]
        | some pr =>
          obtain ⟨tok, rest⟩ := pr
          have hc := nextToken_consumes 4 l tok rest htok
          simp only [playLoopFuel, htok]
          rw [ih rest k1 k2 (by omega) (by omega) (by omega)]

/-- If the score tokenizes to nothing, the scanner finds no token. -/
theorem nextToken_none_of_tokenize_nil (l : List Char) (h : tokenize 4 l = []) :
    nextToken 4 l = none := by
  unfold tokenize at h
  cases htok : nextToken 4 l with
  | none => rfl
  | some pr =>
    obtain ⟨tok, rest⟩ := pr
    simp only [tokenizeFuel, htok] at h
    exact absurd h (List.cons_ne_nil _ _)

/-- With no token available the playback loop emits nothing. -/
theorem playLoopFuel_nil_of_nextToken_none (l : List Char) (fuel : Nat)
    (h : nextToken 4 l = none) : playLoopFuel fuel l = [] := by
  cases fuel with
  | zero => rfl
  | succ k => simp [playLoopFuel, h]

/-! ## Claim theorems -/

/-- Claim C1: for every note letter in `A`–`G`, every accidental in
`{-1, 0, +1}` and every starting octave, `note_from_mml` computes the
semitone as the fixed-table base (C=0, D=2, E=4, F=5, G=7, A=9, B=11)
plus the accidental, adds 12 and decrements the octave (only when
octave > 1) if the sum is negative, subtracts 12 and increments the
octave (only when octave < 8) if the sum is ≥ 12, and returns
`octave*12 + semitone - 21` clamped to `[0, 86]` (the formula
`claim_resolve`, written from the claim's words). -/
theorem resolver_matches_claim (letter : Char) (accidental : Int) (octave : Nat)
    (hl : letter ∈ ['C', 'D', 'E', 'F', 'G', 'A', 'B'])
    (ha : accidental = -1 ∨ accidental = 0 ∨ accidental = 1) :
    note_from_mml letter accidental octave =
      BuzzerNote.note (claim_resolve letter accidental octave) := by
  fin_cases hl <;> rcases ha with rfl | rfl | rfl <;> rfl

/-- Witness for C1 at the concrete input `(C, -1, 1)`. -/
theorem resolver_matches_claim_witness :
    note_from_mml 'C' (-1) 1 = BuzzerNote.note (claim_resolve 'C' (-1) 1) :=
  resolver_matches_claim 'C' (-1) 1 (by decide) (Or.inl rfl)

/-- Claim C2: for every letter `A`–`G`, accidental in `{-1, 0, +1}` and
octave in `[1, 8]`, the resolver returns a pitch index inside the table
bounds `[0, 86]` (never the rest sentinel, never out of range); in
particular resolving C-flat at the floor octave 1 does not decrement
the octave below 1 (the borrow step leaves the octave at 1) and its
index lies in `[0, 86]`. -/
theorem resolver_in_bounds :
    (∀ (letter : Char) (accidental : Int) (octave : Nat),
        letter ∈ ['C', 'D', 'E', 'F', 'G', 'A', 'B'] →
        (accidental = -1 ∨ accidental = 0 ∨ accidental = 1) →
        1 ≤ octave → octave ≤ 8 →
        inBoundsB (note_from_mml letter accidental octave) = true) ∧
    (adjust_octave_down (0 + (-1)) 1).2 = 1 ∧
    inBoundsB (note_from_mml 'C' (-1) 1) = true := by
  refine ⟨?_, by decide, by decide⟩
  intro letter accidental octave hl ha h1 h8
  interval_cases octave <;> fin_cases hl <;> rcases ha with rfl | rfl | rfl <;> decide

/-- Witness for C2 at the concrete input `(C, -1, 1)`. -/
theorem resolver_in_bounds_witness :
    inBoundsB (note_from_mml 'C' (-1) 1) = true :=
  resolver_in_bounds.1 'C' (-1) 1 (by decide) (Or.inl rfl) (by decide) (by decide)

/-- Claim C3: for every `tempo_bpm > 0` and note-length denominator
`length ≥ 1`, the computed millisecond duration equals
`(4 * (60000 / tempo_bpm)) / length` with truncating Nat division and
the multiplication by 4 performed before the division by `length`. -/
theorem duration_formula (tempo_bpm len : Nat)
    (ht : 0 < tempo_bpm) (hl : 1 ≤ len) :
    dur_ms tempo_bpm len = (4 * (60000 / tempo_bpm)) / len := rfl

/-- Witness for C3 at tempo 120 and length 4 (the value is 500 ms). -/
theorem duration_formula_witness :
    dur_ms 120 4 = (4 * (60000 / 120)) / 4 ∧ dur_ms 120 4 = 500 :=
  ⟨duration_formula 120 4 (by decide) (by decide), by decide⟩

/-- Claim C4: playing the score `"c4"` (tempo 120, default length 4)
issues exactly one tone command, with `duration_ms = 500`, followed by
blanking the note display and the cleanup; the LIGHT-button playback of
that score from the idle state ends with `is_playing = false` (Idle). -/
theorem c4_end_to_end :
    mml_play_blocking (some "c4".toList) =
      [Effect.clearPixel 0 12, Effect.clearPixel 0 15,
       Effect.displayString "c" 0,
       Effect.buzzerPlayNote (BuzzerNote.note 27) 500,
       Effect.clearPixel 0 12, Effect.clearPixel 0 15,
       Effect.displayString " " 0,
       Effect.clearPixel 0 12, Effect.clearPixel 0 15, Effect.buzzerOff] ∧
    (mml_play_blocking (some "c4".toList)).countP isToneB = 1 ∧
    (start_playback "c4".toList ⟨false⟩).1 = ⟨false⟩ :=
  ⟨by decide, by decide, by decide⟩

/-- Claim C5: tokenizing `"c8 d-8 r4"` yields exactly the three tokens
Note(C, 0, 8), Note(D, -1, 8), Rest(4), in order. -/
theorem tokenize_example :
    tokenize 4 "c8 d-8 r4".toList =
      [Token.note 'C' 0 8, Token.note 'D' (-1) 8, Token.rest 4] := by decide

/-- Claim C6: after a case-insensitive `R` or `P` the scanner produces a
Rest token and consumes no following modifier character: an immediately
following `+`, `#` or `-` is left in the remaining input. -/
theorem rest_no_modifier (c m : Char) (d : Nat) (l : List Char)
    (hc : c = 'R' ∨ c = 'r' ∨ c = 'P' ∨ c = 'p')
    (hm : m = '+' ∨ m = '#' ∨ m = '-') :
    nextToken d (c :: m :: l) = some (Token.rest d, m :: l) := by
  rcases hc with rfl | rfl | rfl | rfl <;> rcases hm with rfl | rfl | rfl <;> rfl

/-- Witness for C6 at the concrete input `['R', '+']`. -/
theorem rest_no_modifier_witness :
    nextToken 4 ['R', '+'] = some (Token.rest 4, ['+']) :=
  rest_no_modifier 'R' '+' 4 [] (Or.inl rfl) (Or.inl rfl)

/-- Claim C7: a LIGHT-button (begin-playback) request while
`is_playing` is already true is a no-op: the state is unchanged and no
effects are emitted. -/
theorem reentrancy_guard (st : MmlPlayerState) (h : st.is_playing = true) :
    mml_player_face_loop EventType.lightButtonUp st =
      (st, [], LoopResult.value true) := by
  simp [mml_player_face_loop, start_playback, h]

/-- Witness for C7 at the concrete playing state. -/
theorem reentrancy_guard_witness :
    mml_player_face_loop EventType.lightButtonUp ⟨true⟩ =
      (⟨true⟩, [], LoopResult.value true) :=
  reentrancy_guard ⟨true⟩ rfl

/-- Claim C8: any character that is not a space, tab or `|` and is not
(case-insensitively) one of `A`–`G`, `R` or `P` is skipped: the scanner
advances past it, producing no token and no error. -/
theorem unrecognized_skipped (c : Char) (d : Nat) (l : List Char)
    (hsep : ¬(c = ' ' ∨ c = '\t' ∨ c = '|'))
    (hrp : ¬(c_toupper c = 'R' ∨ c_toupper c = 'P'))
    (hng : ¬('A' ≤ c_toupper c ∧ c_toupper c ≤ 'G')) :
    nextToken d (c :: l) = nextToken d l := by
  simp only [nextToken]
  rw [if_neg hsep, if_neg hrp, if_neg hng]

/-- Witness for C8 at the concrete character `x`. -/
theorem unrecognized_skipped_witness :
    nextToken 4 ['x'] = nextToken 4 [] :=
  unrecognized_skipped 'x' 4 [] (by decide) (by decide) (by decide)

/-- Claim C9: the scanner strictly consumes input on every produced
token (so the playback loop terminates — any fuel beyond the input
length gives the same trace); every non-NULL playback ends with the
unconditional cleanup (blank the note display, clear both accidental
pixels, silence the buzzer); a score with no tokens (empty, or only
separators such as `"   |  "`) produces exactly the cleanup and nothing
else; and playback of any score started from a non-playing state ends
in the Idle state (`is_playing = false`). -/
theorem playback_terminates_and_cleans :
    (∀ (d : Nat) (l : List Char) (tok : Token) (rest : List Char),
        nextToken d l = some (tok, rest) → rest.length < l.length) ∧
    (∀ (l : List Char) (fuel : Nat), l.length < fuel →
        playLoopFuel fuel l = playLoopFuel (l.length + 1) l) ∧
    (∀ l : List Char, ∃ pre : List Effect,
        mml_play_blocking (some l) =
          pre ++ [display_note_char ' ', Effect.clearPixel 0 12,
                  Effect.clearPixel 0 15, Effect.buzzerOff]) ∧
    (∀ l : List Char, tokenize 4 l = [] →
        mml_play_blocking (some l) =
          [display_note_char ' ', Effect.clearPixel 0 12,
           Effect.clearPixel 0 15, Effect.buzzerOff]) ∧
    tokenize 4 [] = [] ∧ tokenize 4 "   |  ".toList = [] ∧
    (∀ (score : List Char) (st : MmlPlayerState), st.is_playing = false →
        (start_playback score st).1 = ⟨false⟩) := by
  refine ⟨nextToken_consumes, ?_, ?_, ?_, by decide, by decide, ?_⟩
  · intro l fuel h
    exact playLoopFuel_irrel l.length l fuel (l.length + 1) le_rfl h
      (Nat.lt_succ_self _)
  · intro l
    exact ⟨playLoopFuel (l.length + 1) l, rfl⟩
  · intro l h
    have hn := nextToken_none_of_tokenize_nil l h
    show playLoopFuel (l.length + 1) l ++ cleanupEffects = _
    rw [playLoopFuel_nil_of_nextToken_none l _ hn]
    rfl
  · intro score st h
    simp [start_playback, h]

/-- Witness for C9 at concrete inputs: consuming the token of `['c']`,
fuel irrelevance on `['x']`, the separator-only score, and the Idle
final state after playing the separator-only score from Idle. -/
theorem playback_terminates_and_cleans_witness :
    (List.length ([] : List Char) < List.length ['c']) ∧
    playLoopFuel 5 ['x'] = playLoopFuel (List.length ['x'] + 1) ['x'] ∧
    mml_play_blocking (some "   |  ".toList) =
      [display_note_char ' ', Effect.clearPixel 0 12, Effect.clearPixel 0 15,
       Effect.buzzerOff] ∧
    (start_playback "   |  ".toList ⟨false⟩).1 = ⟨false⟩ :=
  ⟨playback_terminates_and_cleans.1 4 ['c'] (Token.note 'C' 0 4) [] (by decide),
   playback_terminates_and_cleans.2.1 ['x'] 5 (by decide),
   playback_terminates_and_cleans.2.2.2.1 "   |  ".toList
     (playback_terminates_and_cleans.2.2.2.2.2.1),
   playback_terminates_and_cleans.2.2.2.2.2.2 "   |  ".toList ⟨false⟩ rfl⟩

/-- Claim C10: a NULL score pointer makes `mml_play_blocking` return
immediately with no effects at all — in particular the end-of-tune
cleanup does not run. -/
theorem null_score_no_effects : mml_play_blocking none = [] := rfl

end MmlPlayer
